import Mathlib

/-!
Verification of the tremor / dyskinesia detector firmware (`src/main.cpp`).

The C++ `float` values are modelled by exact rationals (`ℚ`); the spectral
root-mean-square, which calls `sqrtf`, and the external real FFT are modelled in `ℝ`.
Machine `int16_t` reassembly from little-endian bytes is modelled on `ℕ`/`ℤ`.
-/

namespace TremorDetector

/-- Accelerometer tremor threshold `ACC_T_TH = 0.10f` (main.cpp:16). -/
def ACC_T_TH : ℚ := 1/10

/-- Accelerometer dyskinesia threshold `ACC_D_TH = 0.10f` (main.cpp:17). -/
def ACC_D_TH : ℚ := 1/10

/-- Gyroscope tremor threshold `GYR_T_TH = 10.0f` (main.cpp:18). -/
def GYR_T_TH : ℚ := 10

/-- Gyroscope dyskinesia threshold `GYR_D_TH = 10.0f` (main.cpp:19). -/
def GYR_D_TH : ℚ := 10

/-- Peak-to-RMS ratio threshold `PEAK_TO_RMS = 1.5f` (main.cpp:20). -/
def PEAK_TO_RMS : ℚ := 3/2

/-- Stability window count `STABLE_WINDOWS = 1` (main.cpp:23). -/
def STABLE_WINDOWS : ℕ := 1

/-- Calibration window count `CALIBRATION_WINDOWS = 5` (main.cpp:28). -/
def CALIBRATION_WINDOWS : ℕ := 5

/-- Sample rate `Fs = 104` (main.cpp:49). -/
def Fs : ℕ := 104

/-- Window length in seconds `WIN_S = 1` (main.cpp:50). -/
def WIN_S : ℕ := 1

/-- Samples per window `N = Fs * WIN_S` (main.cpp:51). -/
def N : ℕ := Fs * WIN_S

/-- Transform length `FFTN = 256` (main.cpp:52). -/
def FFTN : ℕ := 256

/-- Accelerometer LSB scale `0.000061f` (main.cpp:156,212). -/
def ACC_SCALE : ℚ := 61/1000000

/-- Gyroscope LSB scale `0.00875f` (main.cpp:162,215). -/
def GYR_SCALE : ℚ := 875/100000

/-- Little-endian 16-bit reassembly `data[lo] | (data[hi] << 8)` (main.cpp:156,195). -/
def u16 (lo hi : ℕ) : ℕ := lo ||| (hi <<< 8)

/-- Semantics of the C cast `(int16_t)` applied to a value in `[0, 65536)`:
two's-complement reinterpretation (main.cpp:195-203). -/
def i16ofU16 (u : ℕ) : ℤ := if u < 32768 then (u : ℤ) else (u : ℤ) - 65536

/-- Calibration-phase accelerometer conversion (main.cpp:156-158): the
reassembled 16-bit value is used WITHOUT a signed cast, then scaled. -/
def calibAccVal (lo hi : ℕ) : ℚ := (u16 lo hi : ℚ) * ACC_SCALE

/-- Calibration-phase gyroscope conversion (main.cpp:162-164), unsigned. -/
def calibGyrVal (lo hi : ℕ) : ℚ := (u16 lo hi : ℚ) * GYR_SCALE

/-- Live-acquisition accelerometer conversion (main.cpp:195-197,212-214):
reassembled value cast to `int16_t`, then scaled. -/
def liveAccVal (lo hi : ℕ) : ℚ := (i16ofU16 (u16 lo hi) : ℚ) * ACC_SCALE

/-- Live-acquisition gyroscope conversion (main.cpp:201-203,215-217), signed. -/
def liveGyrVal (lo hi : ℕ) : ℚ := (i16ofU16 (u16 lo hi) : ℚ) * GYR_SCALE

/-- Frequency bin for 3 Hz: `i3 = roundf(3.0f * FFTN / Fs)` (main.cpp:136). -/
def i3 : ℤ := round ((3 * (FFTN : ℚ)) / (Fs : ℚ))

/-- Frequency bin for 5 Hz: `i5 = roundf(5.0f * FFTN / Fs)` (main.cpp:137). -/
def i5 : ℤ := round ((5 * (FFTN : ℚ)) / (Fs : ℚ))

/-- Frequency bin for 7 Hz: `i7 = roundf(7.0f * FFTN / Fs)` (main.cpp:138). -/
def i7 : ℤ := round ((7 * (FFTN : ℚ)) / (Fs : ℚ))

/-- The 3 Hz bin as a natural-number array index. -/
def i3N : ℕ := i3.toNat

/-- The 5 Hz bin as a natural-number array index. -/
def i5N : ℕ := i5.toNat

/-- The 7 Hz bin as a natural-number array index. -/
def i7N : ℕ := i7.toNat

/-- Accumulator of the RMS loop (main.cpp:238-241): after `n` iterations the
loop has added `mag[k]*mag[k]` for `k = 1..n`. -/
def sumSqAux {K : Type} [LinearOrderedField K] (mag : ℕ → K) : ℕ → K
  | 0 => 0
  | n + 1 => sumSqAux mag n + mag (n + 1) * mag (n + 1)

/-- Sum of squared magnitudes over bins `1..i7+2`, the value of `rms` just
before the `sqrtf` call (main.cpp:238-242). -/
def rmsSumSq {K : Type} [LinearOrderedField K] (mag : ℕ → K) : K :=
  sumSqAux mag (i7N + 2)

/-- The analyzer RMS `sqrtf(rms / (i7 + 2))` (main.cpp:242). -/
noncomputable def rms (mag : ℕ → ℝ) : ℝ :=
  Real.sqrt (rmsSumSq mag / ((i7N : ℝ) + 2))

/-- Peak-scan loop (main.cpp:247-252): starting from `(0, lo)` it scans bins
`lo, lo+1, ..., lo+c-1` in ascending order, recording a new peak only on a
strict increase, so ties keep the first maximum encountered. -/
def peakAux {K : Type} [LinearOrderedField K] (mag : ℕ → K) (lo : ℕ) : ℕ → K × ℕ
  | 0 => (0, lo)
  | c + 1 =>
    if (peakAux mag lo c).1 < mag (lo + c) then (mag (lo + c), lo + c)
    else peakAux mag lo c

/-- The 3-5 Hz band peak `(p35, k35)`: scan of bins `i3..i5` (main.cpp:247-249). -/
def peak35 {K : Type} [LinearOrderedField K] (mag : ℕ → K) : K × ℕ :=
  peakAux mag i3N (i5N + 1 - i3N)

/-- The 5-7 Hz band peak `(p57, k57)`: scan of bins `i5..i7` (main.cpp:250-252). -/
def peak57 {K : Type} [LinearOrderedField K] (mag : ℕ → K) : K × ℕ :=
  peakAux mag i5N (i7N + 1 - i5N)

/-- Per-channel tremor test (main.cpp:266):
`p35 >= tth && p35 / rms > PEAK_TO_RMS && rms > tth * 0.5f`.
Rational division is total with `x / 0 = 0`; since the conjunct
`tth * 0.5 < rms` already fails whenever `rms = 0`, the test's outcome
agrees with the IEEE float evaluation for every `rms ≥ 0`. -/
def tremorTest (p35 rmsv tth : ℚ) : Bool :=
  decide (tth ≤ p35) && decide (PEAK_TO_RMS < p35 / rmsv) && decide (tth * (1/2) < rmsv)

/-- Per-channel dyskinesia test (main.cpp:270), symmetric on `p57`/`dth`. -/
def dyskinesiaTest (p57 rmsv dth : ℚ) : Bool :=
  decide (dth ≤ p57) && decide (PEAK_TO_RMS < p57 / rmsv) && decide (dth * (1/2) < rmsv)

/-- Spectral summary of one channel as consumed by the threshold logic of
`analyze` (main.cpp:231-273), together with the channel's thresholds and
normalization scale passed at the call sites (main.cpp:276-281). -/
structure ChanIn where
  p35 : ℚ
  p57 : ℚ
  rmsv : ℚ
  tth : ℚ
  dth : ℚ
  scale : ℚ
deriving DecidableEq

/-- Window-wide decision variables `trem, dysk, levelT, levelD` (main.cpp:228-229). -/
structure Decision where
  trem : Bool
  dysk : Bool
  levelT : ℚ
  levelD : ℚ
deriving DecidableEq

/-- Threshold part of one `analyze` call (main.cpp:266-273): each passing test
sets the window flag and folds `peak / scale` into the running maximum level. -/
def analyzeTh (st : Decision) (c : ChanIn) : Decision :=
  let st1 :=
    if tremorTest c.p35 c.rmsv c.tth then
      { st with trem := true, levelT := max st.levelT (c.p35 / c.scale) }
    else st
  if dyskinesiaTest c.p57 c.rmsv c.dth then
    { st1 with dysk := true, levelD := max st1.levelD (c.p57 / c.scale) }
  else st1

/-- Full window decision: the six `analyze` calls folded in order, then the
levels clamped to `[0,1]` by `fminf` (main.cpp:276-284). -/
def windowDecide (cs : List ChanIn) : Decision :=
  let r := cs.foldl analyzeTh { trem := false, dysk := false, levelT := 0, levelD := 0 }
  { r with levelT := min r.levelT 1, levelD := min r.levelD 1 }

/-- Accelerometer channel inputs: thresholds `ACC_T_TH, ACC_D_TH`, scale `0.5f`
(main.cpp:276-278). -/
def accChan (p35 p57 rmsv : ℚ) : ChanIn :=
  ⟨p35, p57, rmsv, ACC_T_TH, ACC_D_TH, 1/2⟩

/-- Gyroscope channel inputs: thresholds `GYR_T_TH, GYR_D_TH`, scale `100.f`
(main.cpp:279-281). -/
def gyrChan (p35 p57 rmsv : ℚ) : ChanIn :=
  ⟨p35, p57, rmsv, GYR_T_TH, GYR_D_TH, 100⟩

/-- Guard of the dyskinesia branch `dysk && (!trem || levelD >= levelT)`
(main.cpp:295). -/
def dyskWins (d : Decision) : Bool :=
  d.dysk && (!d.trem || decide (d.levelT ≤ d.levelD))

/-- Tremor wins a window when the dyskinesia branch is not taken and the
tremor flag is set (`else if (trem)`, main.cpp:301). -/
def tremorWins (d : Decision) : Bool :=
  !dyskWins d && d.trem

/-- One step of the stability filter (main.cpp:292-310): state is the pair
`(stable_tremor, stable_dyskinesia)`, output the pair
`(show_tremor, show_dyskinesia)`. The stability counters are C `int`s that
are only ever zeroed or incremented, so they are modelled on `ℕ`. -/
def stabStep (sw : ℕ) (s : ℕ × ℕ) (d : Decision) : (ℕ × ℕ) × Bool × Bool :=
  if dyskWins d then ((0, s.2 + 1), false, decide (sw ≤ s.2 + 1))
  else if d.trem then ((s.1 + 1, 0), decide (sw ≤ s.1 + 1), false)
  else ((0, 0), false, false)

/-- LED feedback of one window (main.cpp:312-334): show flags, the duty cycle
written to each indicator LED after the reset-to-zero, and the status LED. -/
structure WinOut where
  showT : Bool
  showD : Bool
  dutyT : ℚ
  dutyD : ℚ
  status : Bool
deriving DecidableEq

/-- Stability filter step together with the LED feedback it drives
(main.cpp:292-334): both indicator LEDs are first reset to duty 0, then at
most one is rewritten with the current window's level. -/
def windowUpdate (sw : ℕ) (s : ℕ × ℕ) (d : Decision) : (ℕ × ℕ) × WinOut :=
  let r := stabStep sw s d
  ⟨r.1,
   { showT := r.2.1
     showD := r.2.2
     dutyT := if r.2.2 then 0 else if r.2.1 then d.levelT else 0
     dutyD := if r.2.2 then d.levelD else 0
     status := r.2.1 || r.2.2 }⟩

/-- Stability-filter state after a sequence of window decisions. -/
def stabRun (sw : ℕ) (s : ℕ × ℕ) (ds : List Decision) : ℕ × ℕ :=
  ds.foldl (fun st d => (stabStep sw st d).1) s

/-- Show-flag outputs along a sequence of window decisions. -/
def stabOuts (sw : ℕ) (s : ℕ × ℕ) : List Decision → List (Bool × Bool)
  | [] => []
  | d :: ds => (stabStep sw s d).2 :: stabOuts sw (stabStep sw s d).1 ds

/-- One sensor burst: the six bytes returned by `rN` (main.cpp:152,191). -/
structure RawSix where
  b0 : ℕ
  b1 : ℕ
  b2 : ℕ
  b3 : ℕ
  b4 : ℕ
  b5 : ℕ
deriving DecidableEq

/-- Calibration-phase state: the six per-channel running sums
`baseline_acc[0..2], baseline_gyr[0..2]` and the window sample index `idx`
(main.cpp:146-167). -/
structure CalibState where
  a0 : ℚ
  a1 : ℚ
  a2 : ℚ
  g0 : ℚ
  g1 : ℚ
  g2 : ℚ
  idx : ℕ
deriving DecidableEq

/-- One calibration tick (main.cpp:152-166). A failed accelerometer read
leaves everything unchanged; after a successful accelerometer read the three
accelerometer sums are updated BEFORE the gyroscope read is attempted, and a
failed gyroscope read then restarts the tick without advancing `idx`. -/
def calibTick (s : CalibState) (accR gyrR : Option RawSix) : CalibState :=
  match accR with
  | none => s
  | some a =>
    let s1 := { s with a0 := s.a0 + calibAccVal a.b0 a.b1
                       a1 := s.a1 + calibAccVal a.b2 a.b3
                       a2 := s.a2 + calibAccVal a.b4 a.b5 }
    match gyrR with
    | none => s1
    | some g =>
      { s1 with g0 := s1.g0 + calibGyrVal g.b0 g.b1
                g1 := s1.g1 + calibGyrVal g.b2 g.b3
                g2 := s1.g2 + calibGyrVal g.b4 g.b5
                idx := s1.idx + 1 }

/-- Initial calibration state: all sums zero (main.cpp:29-30). -/
def calibInit : CalibState := ⟨0, 0, 0, 0, 0, 0, 0⟩

/-- Calibration accumulation over a list of fully successful tick readings
(accelerometer burst, gyroscope burst). -/
def calibRun (ticks : List (RawSix × RawSix)) : CalibState :=
  ticks.foldl (fun s t => calibTick s (some t.1) (some t.2)) calibInit

/-- Published baselines and calibration flag (main.cpp:171-176). -/
structure CalibResult where
  ba0 : ℚ
  ba1 : ℚ
  ba2 : ℚ
  bg0 : ℚ
  bg1 : ℚ
  bg2 : ℚ
  calibrated : Bool
deriving DecidableEq

/-- Baseline computation: each running sum divided by
`CALIBRATION_WINDOWS * N`, then `is_calibrated = true` (main.cpp:172-176). -/
def finishCalib (s : CalibState) : CalibResult :=
  ⟨s.a0 / ((CALIBRATION_WINDOWS * N : ℕ) : ℚ),
   s.a1 / ((CALIBRATION_WINDOWS * N : ℕ) : ℚ),
   s.a2 / ((CALIBRATION_WINDOWS * N : ℕ) : ℚ),
   s.g0 / ((CALIBRATION_WINDOWS * N : ℕ) : ℚ),
   s.g1 / ((CALIBRATION_WINDOWS * N : ℕ) : ℚ),
   s.g2 / ((CALIBRATION_WINDOWS * N : ℕ) : ℚ),
   true⟩

/-- Arithmetic mean of a list of rationals. -/
def listMean (l : List ℚ) : ℚ := l.sum / (l.length : ℚ)

/-- Acquisition-phase state: the six channel buffers and the window index
(main.cpp:61-62,186). -/
structure AcqState where
  ax : ℕ → ℚ
  ay : ℕ → ℚ
  az : ℕ → ℚ
  gx : ℕ → ℚ
  gy : ℕ → ℚ
  gz : ℕ → ℚ
  idx : ℕ

/-- One acquisition tick (main.cpp:191-219). The raw triplets are held in
locals, so a failure of either read commits nothing and leaves `idx` where it
was; only after both reads succeed are the scaled, baseline-subtracted values
stored at `idx` and the index advanced. -/
def acqTick (b : CalibResult) (s : AcqState) (accR gyrR : Option RawSix) : AcqState :=
  match accR with
  | none => s
  | some a =>
    match gyrR with
    | none => s
    | some g =>
      { ax := Function.update s.ax s.idx (liveAccVal a.b0 a.b1 - b.ba0)
        ay := Function.update s.ay s.idx (liveAccVal a.b2 a.b3 - b.ba1)
        az := Function.update s.az s.idx (liveAccVal a.b4 a.b5 - b.ba2)
        gx := Function.update s.gx s.idx (liveGyrVal g.b0 g.b1 - b.bg0)
        gy := Function.update s.gy s.idx (liveGyrVal g.b2 g.b3 - b.bg1)
        gz := Function.update s.gz s.idx (liveGyrVal g.b4 g.b5 - b.bg2)
        idx := s.idx + 1 }

/-- Modelled from the spec: the forward real-to-complex transform plus
magnitude (`arm_rfft_fast_f32` and `arm_cmplx_mag_f32`, main.cpp:234-235) are
external CMSIS-DSP library code, not part of this repository; following §4.4
of the spec they are modelled as the standard discrete Fourier transform
magnitude per positive-frequency bin. -/
noncomputable def dftMag (d : ℕ → ℝ) (k : ℕ) : ℝ :=
  Complex.abs (∑ n in Finset.range FFTN,
    ((d n : ℂ) * Complex.exp (-(2 * (Real.pi : ℂ) * Complex.I * (k : ℂ) * (n : ℂ)) / (FFTN : ℂ))))

/-- Six-channel window input for the end-to-end scenario of the spec: one
accelerometer axis carrying band activity, the remaining five channels
silent. -/
def c1Window (r : ℚ) : List ChanIn :=
  [accChan (3/20) 0 r, accChan 0 0 0, accChan 0 0 0,
   gyrChan 0 0 0, gyrChan 0 0 0, gyrChan 0 0 0]

/-- The 3 Hz bin evaluates to 7 with the shipped configuration. -/
lemma i3_eq : i3 = 7 := by norm_num [i3, FFTN, Fs, round_eq]

/-- The 5 Hz bin evaluates to 12 with the shipped configuration. -/
lemma i5_eq : i5 = 12 := by norm_num [i5, FFTN, Fs, round_eq]

/-- The 7 Hz bin evaluates to 17 with the shipped configuration. -/
lemma i7_eq : i7 = 17 := by norm_num [i7, FFTN, Fs, round_eq]

/-- Index form of `i3_eq`. -/
lemma i3N_eq : i3N = 7 := by rw [i3N, i3_eq]; rfl

/-- Index form of `i5_eq`. -/
lemma i5N_eq : i5N = 12 := by rw [i5N, i5_eq]; rfl

/-- Index form of `i7_eq`. -/
lemma i7N_eq : i7N = 17 := by rw [i7N, i7_eq]; rfl

/-- C10: with `Fs = 104` and `FFTN = 256` the startup bin indices are
`i3 = 7`, `i5 = 12`, `i7 = 17`, and every magnitude-array access of the
analyzer — the RMS loop over bins `1..i7+2` and the peak loops over bins
`i3..i7` — lies strictly inside the valid index range `[0, FFTN/2)`. -/
theorem C10_bins :
    i3 = 7 ∧ i5 = 12 ∧ i7 = 17 ∧
    (∀ k ∈ Finset.Icc 1 (i7N + 2), k < FFTN / 2) ∧
    (∀ k ∈ Finset.Icc i3N i7N, k < FFTN / 2) := by
  refine ⟨i3_eq, i5_eq, i7_eq, ?_, ?_⟩
  · rw [i7N_eq]; decide
  · rw [i3N_eq, i7N_eq]; decide

/-- Witness for C10: the last bin the RMS loop touches, bin 19, is in range. -/
theorem C10_witness : (19 : ℕ) < FFTN / 2 :=
  C10_bins.2.2.2.1 19 (by rw [i7N_eq]; decide)

/-- C3 evaluation at the failing input: raw little-endian bytes
`lo = 0x00, hi = 0x80` (raw reading `0x8000`). The calibration phase omits
the `int16_t` cast and accumulates `+32768 * scale`, while the live
acquisition phase casts and produces `-32768 * scale`; the two phases thus
disagree on every raw reading with the high bit of the upper byte set. -/
theorem C3_sign_bug :
    u16 0 128 = 32768 ∧
    calibAccVal 0 128 = 32768 * ACC_SCALE ∧
    liveAccVal 0 128 = -(32768 * ACC_SCALE) ∧
    calibAccVal 0 128 ≠ liveAccVal 0 128 ∧
    calibGyrVal 0 128 ≠ liveGyrVal 0 128 := by
  norm_num [calibAccVal, liveAccVal, calibGyrVal, liveGyrVal, i16ofU16, u16,
    ACC_SCALE, GYR_SCALE, Nat.shiftLeft_eq]

/-- C2 counterexample: on a calibration tick whose accelerometer read
succeeds (raw bytes `1,0,0,0,0,0`) and whose gyroscope read fails, the
window index does not advance, yet the accelerometer running sum has already
been updated — data from the failed tick IS committed to a calibration
running sum, contradicting the claim. -/
theorem C2_counterexample :
    (calibTick ⟨0, 0, 0, 0, 0, 0, 0⟩ (some ⟨1, 0, 0, 0, 0, 0⟩) none).idx = 0 ∧
    (calibTick ⟨0, 0, 0, 0, 0, 0, 0⟩ (some ⟨1, 0, 0, 0, 0, 0⟩) none).a0 ≠ 0 := by
  norm_num [calibTick, calibAccVal, u16, ACC_SCALE, Nat.shiftLeft_eq]

/-- C2 (amended): a failed read never advances the sample index, and the
slot is retried; in the acquisition loop a failure of either read commits
nothing at all, and in calibration a failed accelerometer read commits
nothing — but on a calibration tick where the accelerometer read succeeds
and the gyroscope read fails, the accelerometer triplet has already been
added to the calibration running sums. On full success the index advances. -/
theorem C2_retry :
    (∀ (b : CalibResult) (s : AcqState) (g : Option RawSix), acqTick b s none g = s) ∧
    (∀ (b : CalibResult) (s : AcqState) (a : RawSix), acqTick b s (some a) none = s) ∧
    (∀ (s : CalibState) (g : Option RawSix), calibTick s none g = s) ∧
    (∀ (s : CalibState) (a : RawSix),
      calibTick s (some a) none =
        { s with a0 := s.a0 + calibAccVal a.b0 a.b1
                 a1 := s.a1 + calibAccVal a.b2 a.b3
                 a2 := s.a2 + calibAccVal a.b4 a.b5 }) ∧
    (∀ (b : CalibResult) (s : AcqState) (a g : RawSix),
      (acqTick b s (some a) (some g)).idx = s.idx + 1) ∧
    (∀ (s : CalibState) (a g : RawSix),
      (calibTick s (some a) (some g)).idx = s.idx + 1) :=
  ⟨fun _ _ _ => rfl, fun _ _ _ => rfl, fun _ _ => rfl, fun _ _ => rfl,
   fun _ _ _ _ => rfl, fun _ _ _ => rfl⟩

/-- C1 counterexample: a window whose only active channel is an
accelerometer axis with `peak_3_5 = 0.15`, `rms = 0.05` and a failing
5-7 Hz test (`peak_5_7 = 0`). The claim says `tremor_flag = true` with
level `0.30`; the code reports `tremor_flag = false` with level `0`,
because the strict RMS-floor test `rms > ACC_T_TH * 0.5 = 0.05` fails at
equality. -/
theorem C1_counterexample :
    dyskinesiaTest 0 (1/20) ACC_D_TH = false ∧
    (windowDecide (c1Window (1/20))).trem = false ∧
    (windowDecide (c1Window (1/20))).levelT = 0 := by
  norm_num [windowDecide, c1Window, analyzeTh, tremorTest, dyskinesiaTest,
    accChan, gyrChan, ACC_T_TH, ACC_D_TH, GYR_T_TH, GYR_D_TH, PEAK_TO_RMS]

/-- C1 (amended): with `rms = 0.05` the strict floor `rms > ACC_T_TH * 0.5`
fails at equality, so the Decision Engine reports `tremor_flag = false`,
`dyskinesia_flag = false`, levels `0`; with `rms = 0.06`, strictly above the
floor, it reports `tremor_flag = true` with level `0.15 / 0.5 = 0.30` and
`dyskinesia_flag = false`, as the scenario intended. -/
theorem C1_floor_strict :
    ACC_T_TH * (1/2) = 1/20 ∧
    windowDecide (c1Window (1/20)) = ⟨false, false, 0, 0⟩ ∧
    windowDecide (c1Window (3/50)) = ⟨true, false, 3/10, 0⟩ := by
  norm_num [windowDecide, c1Window, analyzeTh, tremorTest, dyskinesiaTest,
    accChan, gyrChan, ACC_T_TH, ACC_D_TH, GYR_T_TH, GYR_D_TH, PEAK_TO_RMS]

/-- C5 counterexample: take the shipped `STABLE_WINDOWS = 1` and a window in
which both conditions pass with equal levels, so tremor loses the tie-break.
The claim says such a window resets BOTH stability counters to 0; in the
code the winning condition's counter increments: the resulting counter pair
is `(0, 1)`, not `(0, 0)`. -/
theorem C5_counterexample :
    (stabStep STABLE_WINDOWS (0, 0) ⟨true, true, 1/2, 1/2⟩).1.2 = 1 ∧
    (stabStep STABLE_WINDOWS (0, 0) ⟨true, true, 1/2, 1/2⟩).1 ≠ (0, 0) := by
  norm_num [stabStep, dyskWins, STABLE_WINDOWS]

/-- C6: when both window flags are set, dyskinesia wins the tie-break iff
`levelD ≥ levelT` (equal levels favor dyskinesia) and tremor wins iff its
level is strictly higher; when only one condition's tests passed in the
window, that condition wins. -/
theorem C6_tiebreak (d : Decision) :
    (d.trem = true → d.dysk = true →
      ((dyskWins d = true ↔ d.levelT ≤ d.levelD) ∧
       (tremorWins d = true ↔ d.levelD < d.levelT))) ∧
    (d.dysk = true → d.trem = false → dyskWins d = true ∧ tremorWins d = false) ∧
    (d.trem = true → d.dysk = false → tremorWins d = true ∧ dyskWins d = false) := by
  obtain ⟨t, y, lT, lD⟩ := d
  refine ⟨fun h1 h2 => ?_, fun h1 h2 => ?_, fun h1 h2 => ?_⟩ <;>
    subst h1 <;> subst h2 <;>
    simp [dyskWins, tremorWins, decide_eq_true_eq, not_le]

/-- Witness for C6: at equal levels dyskinesia is preferred; with a strictly
higher tremor level tremor is preferred. -/
theorem C6_witness :
    dyskWins ⟨true, true, 1/2, 1/2⟩ = true ∧ tremorWins ⟨true, true, 1, 1/2⟩ = true :=
  ⟨((C6_tiebreak ⟨true, true, 1/2, 1/2⟩).1 rfl rfl).1.mpr (by norm_num),
   ((C6_tiebreak ⟨true, true, 1, 1/2⟩).1 rfl rfl).2.mpr (by norm_num)⟩

/-- C9: after the decision step of any window, at most one of the show
flags is set, at least one stability counter is zero, and at most one
indicator LED is driven with a nonzero duty cycle. -/
theorem C9_exclusive (sw : ℕ) (s : ℕ × ℕ) (d : Decision) :
    ((windowUpdate sw s d).2.showT = false ∨ (windowUpdate sw s d).2.showD = false) ∧
    ((windowUpdate sw s d).1.1 = 0 ∨ (windowUpdate sw s d).1.2 = 0) ∧
    ((windowUpdate sw s d).2.dutyT = 0 ∨ (windowUpdate sw s d).2.dutyD = 0) := by
  unfold windowUpdate stabStep
  by_cases hd : dyskWins d = true
  · simp [hd]
  · by_cases ht : d.trem = true
    · simp [hd, ht]
    · simp [hd, ht]

/-- Calibration fold, accelerometer channel 0: running sum of conversions. -/
lemma calibFold_a0 : ∀ (ts : List (RawSix × RawSix)) (s : CalibState),
    (ts.foldl (fun s t => calibTick s (some t.1) (some t.2)) s).a0
      = s.a0 + (ts.map fun t => calibAccVal t.1.b0 t.1.b1).sum := by
  intro ts
  induction ts with
  | nil => intro s; simp
  | cons t ts ih =>
    intro s
    simp only [List.foldl_cons, List.map_cons, List.sum_cons]
    rw [ih]
    simp [calibTick]
    ring

/-- Calibration fold, accelerometer channel 1. -/
lemma calibFold_a1 : ∀ (ts : List (RawSix × RawSix)) (s : CalibState),
    (ts.foldl (fun s t => calibTick s (some t.1) (some t.2)) s).a1
      = s.a1 + (ts.map fun t => calibAccVal t.1.b2 t.1.b3).sum := by
  intro ts
  induction ts with
  | nil => intro s; simp
  | cons t ts ih =>
    intro s
    simp only [List.foldl_cons, List.map_cons, List.sum_cons]
    rw [ih]
    simp [calibTick]
    ring

/-- Calibration fold, accelerometer channel 2. -/
lemma calibFold_a2 : ∀ (ts : List (RawSix × RawSix)) (s : CalibState),
    (ts.foldl (fun s t => calibTick s (some t.1) (some t.2)) s).a2
      = s.a2 + (ts.map fun t => calibAccVal t.1.b4 t.1.b5).sum := by
  intro ts
  induction ts with
  | nil => intro s; simp
  | cons t ts ih =>
    intro s
    simp only [List.foldl_cons, List.map_cons, List.sum_cons]
    rw [ih]
    simp [calibTick]
    ring

/-- Calibration fold, gyroscope channel 0. -/
lemma calibFold_g0 : ∀ (ts : List (RawSix × RawSix)) (s : CalibState),
    (ts.foldl (fun s t => calibTick s (some t.1) (some t.2)) s).g0
      = s.g0 + (ts.map fun t => calibGyrVal t.2.b0 t.2.b1).sum := by
  intro ts
  induction ts with
  | nil => intro s; simp
  | cons t ts ih =>
    intro s
    simp only [List.foldl_cons, List.map_cons, List.sum_cons]
    rw [ih]
    simp [calibTick]
    ring

/-- Calibration fold, gyroscope channel 1. -/
lemma calibFold_g1 : ∀ (ts : List (RawSix × RawSix)) (s : CalibState),
    (ts.foldl (fun s t => calibTick s (some t.1) (some t.2)) s).g1
      = s.g1 + (ts.map fun t => calibGyrVal t.2.b2 t.2.b3).sum := by
  intro ts
  induction ts with
  | nil => intro s; simp
  | cons t ts ih =>
    intro s
    simp only [List.foldl_cons, List.map_cons, List.sum_cons]
    rw [ih]
    simp [calibTick]
    ring

/-- Calibration fold, gyroscope channel 2. -/
lemma calibFold_g2 : ∀ (ts : List (RawSix × RawSix)) (s : CalibState),
    (ts.foldl (fun s t => calibTick s (some t.1) (some t.2)) s).g2
      = s.g2 + (ts.map fun t => calibGyrVal t.2.b4 t.2.b5).sum := by
  intro ts
  induction ts with
  | nil => intro s; simp
  | cons t ts ih =>
    intro s
    simp only [List.foldl_cons, List.map_cons, List.sum_cons]
    rw [ih]
    simp [calibTick]
    ring

/-- C4: assuming every sensor read during calibration succeeds, after the
calibration phase completes the `calibrated` flag is set and every
channel's baseline equals the arithmetic mean of the
`CALIBRATION_WINDOWS * N` per-tick physical-unit values that the
calibration phase accumulated for that channel — a plain mean, with no
baseline subtraction, thresholding or stability logic applied. -/
theorem C4_baseline_mean (ticks : List (RawSix × RawSix))
    (h : ticks.length = CALIBRATION_WINDOWS * N) :
    (finishCalib (calibRun ticks)).calibrated = true ∧
    (finishCalib (calibRun ticks)).ba0 =
      listMean (ticks.map fun t => calibAccVal t.1.b0 t.1.b1) ∧
    (finishCalib (calibRun ticks)).ba1 =
      listMean (ticks.map fun t => calibAccVal t.1.b2 t.1.b3) ∧
    (finishCalib (calibRun ticks)).ba2 =
      listMean (ticks.map fun t => calibAccVal t.1.b4 t.1.b5) ∧
    (finishCalib (calibRun ticks)).bg0 =
      listMean (ticks.map fun t => calibGyrVal t.2.b0 t.2.b1) ∧
    (finishCalib (calibRun ticks)).bg1 =
      listMean (ticks.map fun t => calibGyrVal t.2.b2 t.2.b3) ∧
    (finishCalib (calibRun ticks)).bg2 =
      listMean (ticks.map fun t => calibGyrVal t.2.b4 t.2.b5) := by
  refine ⟨rfl, ?_, ?_, ?_, ?_, ?_, ?_⟩
  · show (calibRun ticks).a0 / ((CALIBRATION_WINDOWS * N : ℕ) : ℚ) = _
    rw [calibRun, calibFold_a0, listMean, List.length_map, h]
    simp [calibInit]
  · show (calibRun ticks).a1 / ((CALIBRATION_WINDOWS * N : ℕ) : ℚ) = _
    rw [calibRun, calibFold_a1, listMean, List.length_map, h]
    simp [calibInit]
  · show (calibRun ticks).a2 / ((CALIBRATION_WINDOWS * N : ℕ) : ℚ) = _
    rw [calibRun, calibFold_a2, listMean, List.length_map, h]
    simp [calibInit]
  · show (calibRun ticks).g0 / ((CALIBRATION_WINDOWS * N : ℕ) : ℚ) = _
    rw [calibRun, calibFold_g0, listMean, List.length_map, h]
    simp [calibInit]
  · show (calibRun ticks).g1 / ((CALIBRATION_WINDOWS * N : ℕ) : ℚ) = _
    rw [calibRun, calibFold_g1, listMean, List.length_map, h]
    simp [calibInit]
  · show (calibRun ticks).g2 / ((CALIBRATION_WINDOWS * N : ℕ) : ℚ) = _
    rw [calibRun, calibFold_g2, listMean, List.length_map, h]
    simp [calibInit]

/-- Witness for C4: a full calibration pass over `CALIBRATION_WINDOWS * N`
all-zero tick readings yields a baseline equal to the mean of the converted
samples. -/
theorem C4_witness :
    (finishCalib (calibRun (List.replicate (CALIBRATION_WINDOWS * N)
        ((⟨0, 0, 0, 0, 0, 0⟩ : RawSix), (⟨0, 0, 0, 0, 0, 0⟩ : RawSix))))).ba0 =
      listMean ((List.replicate (CALIBRATION_WINDOWS * N)
        ((⟨0, 0, 0, 0, 0, 0⟩ : RawSix), (⟨0, 0, 0, 0, 0, 0⟩ : RawSix))).map
          fun t => calibAccVal t.1.b0 t.1.b1) :=
  (C4_baseline_mean _ (by simp)).2.1

/-- Unfolding of one stability-run step. -/
lemma stabRun_cons (sw : ℕ) (s : ℕ × ℕ) (d : Decision) (ds : List Decision) :
    stabRun sw s (d :: ds) = stabRun sw (stabStep sw s d).1 ds := rfl

/-- Stability run over the empty window sequence. -/
lemma stabRun_nil (sw : ℕ) (s : ℕ × ℕ) : stabRun sw s [] = s := rfl

/-- A window won by tremor takes the `else if (trem)` branch: the tremor
counter increments, the dyskinesia counter resets. -/
lemma tremorWins_branch (sw : ℕ) (s : ℕ × ℕ) (d : Decision) (h : tremorWins d = true) :
    stabStep sw s d = ((s.1 + 1, 0), decide (sw ≤ s.1 + 1), false) := by
  rw [tremorWins, Bool.and_eq_true, Bool.not_eq_true'] at h
  simp [stabStep, h.1, h.2]

/-- A window won by dyskinesia takes the first branch: the dyskinesia counter
increments, the tremor counter resets. -/
lemma dyskWins_branch (sw : ℕ) (s : ℕ × ℕ) (d : Decision) (h : dyskWins d = true) :
    stabStep sw s d = ((0, s.2 + 1), false, decide (sw ≤ s.2 + 1)) := by
  simp [stabStep, h]

/-- A window in which tremor does not win never raises `show_tremor`. -/
lemma showT_of_not_tremorWins (sw : ℕ) (s : ℕ × ℕ) (d : Decision)
    (h : tremorWins d = false) : (stabStep sw s d).2.1 = false := by
  by_cases hd : dyskWins d = true
  · simp [stabStep, hd]
  · rw [Bool.not_eq_true] at hd
    rw [tremorWins, hd] at h
    simp at h
    simp [stabStep, hd, h]

/-- A window in which dyskinesia does not win never raises
`show_dyskinesia`. -/
lemma showD_of_not_dyskWins (sw : ℕ) (s : ℕ × ℕ) (d : Decision)
    (h : dyskWins d = false) : (stabStep sw s d).2.2 = false := by
  by_cases ht : d.trem = true <;> simp [stabStep, h, ht]

/-- A nonempty run of tremor-winning windows adds its length to the tremor
counter and leaves the dyskinesia counter at zero. -/
lemma stabRun_T (sw : ℕ) : ∀ (ds : List Decision) (d : Decision) (s : ℕ × ℕ),
    (∀ x ∈ d :: ds, tremorWins x = true) →
    stabRun sw s (d :: ds) = (s.1 + ds.length + 1, 0) := by
  intro ds
  induction ds with
  | nil =>
    intro d s h
    rw [stabRun_cons, tremorWins_branch sw s d (h d (by simp)), stabRun_nil]
    simp
  | cons d2 ds ih =>
    intro d s h
    rw [stabRun_cons, tremorWins_branch sw s d (h d (by simp))]
    rw [ih d2 (s.1 + 1, 0) (fun x hx => h x (by simp at hx ⊢; tauto))]
    simp only [List.length_cons, Prod.mk.injEq]
    exact ⟨by omega, trivial⟩

/-- A nonempty run of dyskinesia-winning windows adds its length to the
dyskinesia counter and leaves the tremor counter at zero. -/
lemma stabRun_D (sw : ℕ) : ∀ (ds : List Decision) (d : Decision) (s : ℕ × ℕ),
    (∀ x ∈ d :: ds, dyskWins x = true) →
    stabRun sw s (d :: ds) = (0, s.2 + ds.length + 1) := by
  intro ds
  induction ds with
  | nil =>
    intro d s h
    rw [stabRun_cons, dyskWins_branch sw s d (h d (by simp)), stabRun_nil]
    simp
  | cons d2 ds ih =>
    intro d s h
    rw [stabRun_cons, dyskWins_branch sw s d (h d (by simp))]
    rw [ih d2 (0, s.2 + 1) (fun x hx => h x (by simp at hx ⊢; tauto))]
    simp only [List.length_cons, Prod.mk.injEq]
    exact ⟨trivial, by omega⟩

/-- While the tremor counter stays strictly below the stability threshold,
a run of tremor-winning windows produces no `show_tremor` output. -/
lemma stabOuts_T_false (sw : ℕ) : ∀ (ds : List Decision) (s : ℕ × ℕ),
    (∀ x ∈ ds, tremorWins x = true) → s.1 + ds.length < sw →
    ∀ o ∈ stabOuts sw s ds, o.1 = false := by
  intro ds
  induction ds with
  | nil => intro s _ _ o ho; simp [stabOuts] at ho
  | cons d ds ih =>
    intro s hall hlen o ho
    rw [stabOuts, tremorWins_branch sw s d (hall d (by simp))] at ho
    rcases List.mem_cons.mp ho with h1 | h2
    · rw [h1]
      simp only [decide_eq_false_iff_not, not_le]
      simp only [List.length_cons] at hlen
      omega
    · exact ih (s.1 + 1, 0) (fun x hx => hall x (by simp [hx]))
        (by simp only [List.length_cons] at hlen; simpa using by omega) o h2

/-- While the dyskinesia counter stays strictly below the stability
threshold, a run of dyskinesia-winning windows produces no
`show_dyskinesia` output. -/
lemma stabOuts_D_false (sw : ℕ) : ∀ (ds : List Decision) (s : ℕ × ℕ),
    (∀ x ∈ ds, dyskWins x = true) → s.2 + ds.length < sw →
    ∀ o ∈ stabOuts sw s ds, o.2 = false := by
  intro ds
  induction ds with
  | nil => intro s _ _ o ho; simp [stabOuts] at ho
  | cons d ds ih =>
    intro s hall hlen o ho
    rw [stabOuts, dyskWins_branch sw s d (hall d (by simp))] at ho
    rcases List.mem_cons.mp ho with h1 | h2
    · rw [h1]
      simp only [decide_eq_false_iff_not, not_le]
      simp only [List.length_cons] at hlen
      omega
    · exact ih (0, s.2 + 1) (fun x hx => hall x (by simp [hx]))
        (by simp only [List.length_cons] at hlen; simpa using by omega) o h2

/-- Outputs of a stability run split across list concatenation. -/
lemma stabOuts_append (sw : ℕ) : ∀ (ds es : List Decision) (s : ℕ × ℕ),
    stabOuts sw s (ds ++ es) = stabOuts sw s ds ++ stabOuts sw (stabRun sw s ds) es := by
  intro ds
  induction ds with
  | nil => intro es s; rfl
  | cons d ds ih =>
    intro es s
    rw [List.cons_append, stabOuts, stabOuts, ih es (stabStep sw s d).1, stabRun_cons]
    rfl

/-- A tremor-winning window whose incremented counter reaches the threshold
shows tremor, does not show dyskinesia, and drives the tremor LED with the
current window's level. -/
lemma final_T (sw : ℕ) (s : ℕ × ℕ) (d : Decision) (h : tremorWins d = true)
    (hsw : sw ≤ s.1 + 1) :
    (windowUpdate sw s d).2.showT = true ∧ (windowUpdate sw s d).2.showD = false ∧
    (windowUpdate sw s d).2.dutyT = d.levelT := by
  unfold windowUpdate
  rw [tremorWins_branch sw s d h]
  simp [decide_eq_true_eq, hsw]

/-- A dyskinesia-winning window whose incremented counter reaches the
threshold shows dyskinesia and drives the dyskinesia LED with the current
window's level. -/
lemma final_D (sw : ℕ) (s : ℕ × ℕ) (d : Decision) (h : dyskWins d = true)
    (hsw : sw ≤ s.2 + 1) :
    (windowUpdate sw s d).2.showD = true ∧ (windowUpdate sw s d).2.showT = false ∧
    (windowUpdate sw s d).2.dutyD = d.levelD := by
  unfold windowUpdate
  rw [dyskWins_branch sw s d h]
  simp [decide_eq_true_eq, hsw]

/-- C5 (amended): with `stable_windows ≥ 1`, a window lost by a condition
resets that condition's counter to 0 while the winning condition's counter
increments (a window where neither wins resets both); a run of exactly
`stable_windows − 1` windows confirming one condition, entered with that
condition's counter at 0 and followed by one non-confirming window, never
reports the condition active; and `stable_windows` consecutive confirming
windows always report it active, with the reported intensity equal to the
level of the final confirming window. -/
theorem C5_stability (sw : ℕ) (hsw : 1 ≤ sw) :
    (∀ (s : ℕ × ℕ) (d : Decision),
      (dyskWins d = true → (stabStep sw s d).1 = (0, s.2 + 1)) ∧
      (tremorWins d = true → (stabStep sw s d).1 = (s.1 + 1, 0)) ∧
      (dyskWins d = false → d.trem = false → (stabStep sw s d).1 = (0, 0))) ∧
    (∀ (ds : List Decision) (dl : Decision) (x : ℕ),
      (∀ y ∈ ds, tremorWins y = true) → ds.length + 1 = sw → tremorWins dl = false →
      ∀ o ∈ stabOuts sw (0, x) (ds ++ [dl]), o.1 = false) ∧
    (∀ (ds : List Decision) (dl : Decision) (x : ℕ),
      (∀ y ∈ ds, dyskWins y = true) → ds.length + 1 = sw → dyskWins dl = false →
      ∀ o ∈ stabOuts sw (x, 0) (ds ++ [dl]), o.2 = false) ∧
    (∀ (s : ℕ × ℕ) (ds : List Decision) (dl : Decision),
      (∀ y ∈ ds, tremorWins y = true) → tremorWins dl = true → ds.length + 1 = sw →
      (windowUpdate sw (stabRun sw s ds) dl).2.showT = true ∧
      (windowUpdate sw (stabRun sw s ds) dl).2.dutyT = dl.levelT) ∧
    (∀ (s : ℕ × ℕ) (ds : List Decision) (dl : Decision),
      (∀ y ∈ ds, dyskWins y = true) → dyskWins dl = true → ds.length + 1 = sw →
      (windowUpdate sw (stabRun sw s ds) dl).2.showD = true ∧
      (windowUpdate sw (stabRun sw s ds) dl).2.dutyD = dl.levelD) := by
  refine ⟨?_, ?_, ?_, ?_, ?_⟩
  · intro s d
    refine ⟨fun h => ?_, fun h => ?_, fun h1 h2 => ?_⟩
    · rw [dyskWins_branch sw s d h]
    · rw [tremorWins_branch sw s d h]
    · simp [stabStep, h1, h2]
  · intro ds dl x hall hlen hdl o ho
    rw [stabOuts_append] at ho
    rcases List.mem_append.mp ho with h1 | h2
    · exact stabOuts_T_false sw ds (0, x) hall (by simp; omega) o h1
    · rw [stabOuts, stabOuts] at h2
      rcases List.mem_cons.mp h2 with h3 | h4
      · rw [h3]
        exact showT_of_not_tremorWins sw _ dl hdl
      · simp at h4
  · intro ds dl x hall hlen hdl o ho
    rw [stabOuts_append] at ho
    rcases List.mem_append.mp ho with h1 | h2
    · exact stabOuts_D_false sw ds (x, 0) hall (by simp; omega) o h1
    · rw [stabOuts, stabOuts] at h2
      rcases List.mem_cons.mp h2 with h3 | h4
      · rw [h3]
        exact showD_of_not_dyskWins sw _ dl hdl
      · simp at h4
  · intro s ds dl hall hdl hlen
    have h := final_T sw (stabRun sw s ds) dl hdl ?_
    · exact ⟨h.1, h.2.2⟩
    · cases ds with
      | nil =>
        rw [stabRun_nil]
        simp only [List.length_nil] at hlen
        omega
      | cons d2 ds2 =>
        rw [stabRun_T sw ds2 d2 s hall]
        simp only [List.length_cons] at hlen
        show sw ≤ s.1 + ds2.length + 1 + 1
        omega
  · intro s ds dl hall hdl hlen
    have h := final_D sw (stabRun sw s ds) dl hdl ?_
    · exact ⟨h.1, h.2.2⟩
    · cases ds with
      | nil =>
        rw [stabRun_nil]
        simp only [List.length_nil] at hlen
        omega
      | cons d2 ds2 =>
        rw [stabRun_D sw ds2 d2 s hall]
        simp only [List.length_cons] at hlen
        show sw ≤ s.2 + ds2.length + 1 + 1
        omega

/-- Witness for C5, at `stable_windows = 2`: a tie-break loss leaves the
winner's counter incremented; one confirming window followed by a
non-confirming one never shows tremor; two consecutive confirming windows
show tremor with the final window's level. -/
theorem C5_witness :
    (stabStep 2 (3, 4) ⟨true, true, 1, 1⟩).1 = (0, 5) ∧
    (∀ o ∈ stabOuts 2 (0, 9) ([⟨true, false, 1, 0⟩] ++ [⟨false, false, 0, 0⟩]),
      o.1 = false) ∧
    ((windowUpdate 2 (stabRun 2 (0, 0) [⟨true, false, 1, 0⟩]) ⟨true, false, 1/2, 0⟩).2.showT = true ∧
     (windowUpdate 2 (stabRun 2 (0, 0) [⟨true, false, 1, 0⟩]) ⟨true, false, 1/2, 0⟩).2.dutyT = (⟨true, false, 1/2, 0⟩ : Decision).levelT) := by
  refine ⟨((C5_stability 2 (by norm_num)).1 (3, 4) ⟨true, true, 1, 1⟩).1 (by norm_num [dyskWins]),
    (C5_stability 2 (by norm_num)).2.1 [⟨true, false, 1, 0⟩] ⟨false, false, 0, 0⟩ 9
      (fun y hy => by rw [List.mem_singleton] at hy; rw [hy]; rfl) rfl rfl, ?_⟩
  exact (C5_stability 2 (by norm_num)).2.2.2.1 (0, 0) [⟨true, false, 1, 0⟩] ⟨true, false, 1/2, 0⟩
    (fun y hy => by rw [List.mem_singleton] at hy; rw [hy]; rfl) rfl rfl

/-- The RMS accumulation loop computes the sum of `mag[k]*mag[k]` over
`k = 1..n`. -/
lemma sumSqAux_eq_sum (mag : ℕ → ℝ) : ∀ n,
    sumSqAux mag n = ∑ k in Finset.Icc 1 n, mag k * mag k := by
  intro n
  induction n with
  | zero => simp [sumSqAux]
  | succ m ih =>
    show sumSqAux mag m + mag (m + 1) * mag (m + 1) = _
    rw [ih, Finset.sum_Icc_succ_top (by omega : 1 ≤ m + 1)]

/-- Invariant of the peak-scan loop: the running peak is nonnegative, bounds
every scanned magnitude, and is either still the initial `(0, lo)` or records
a scanned bin whose magnitude it equals, every earlier bin being strictly
smaller. -/
lemma peakAux_spec (mag : ℕ → ℝ) (lo : ℕ) : ∀ c,
    0 ≤ (peakAux mag lo c).1 ∧
    (∀ j, j < c → mag (lo + j) ≤ (peakAux mag lo c).1) ∧
    (peakAux mag lo c = (0, lo) ∨
      (lo ≤ (peakAux mag lo c).2 ∧ (peakAux mag lo c).2 < lo + c ∧
       mag (peakAux mag lo c).2 = (peakAux mag lo c).1 ∧
       ∀ k, lo ≤ k → k < (peakAux mag lo c).2 → mag k < (peakAux mag lo c).1)) := by
  intro c
  induction c with
  | zero =>
    refine ⟨le_refl _, ?_, Or.inl rfl⟩
    intro j hj
    exact absurd hj (Nat.not_lt_zero j)
  | succ m ih =>
    by_cases h : (peakAux mag lo m).1 < mag (lo + m)
    · have hrw : peakAux mag lo (m + 1) = (mag (lo + m), lo + m) := by
        simp only [peakAux]
        rw [if_pos h]
      rw [hrw]
      refine ⟨le_of_lt (lt_of_le_of_lt ih.1 h), ?_,
        Or.inr ⟨Nat.le_add_right lo m, by omega, rfl, ?_⟩⟩
      · intro j hj
        rcases Nat.lt_succ_iff_lt_or_eq.mp hj with h1 | h1
        · exact le_of_lt (lt_of_le_of_lt (ih.2.1 j h1) h)
        · rw [h1]
      · intro k hk1 hk2
        have hj := ih.2.1 (k - lo) (by omega)
        rw [Nat.add_sub_cancel' hk1] at hj
        exact lt_of_le_of_lt hj h
    · have hrw : peakAux mag lo (m + 1) = peakAux mag lo m := by
        simp only [peakAux]
        rw [if_neg h]
      rw [hrw]
      obtain ⟨h0, hb, hd⟩ := ih
      refine ⟨h0, ?_, ?_⟩
      · intro j hj
        rcases Nat.lt_succ_iff_lt_or_eq.mp hj with h1 | h1
        · exact hb j h1
        · rw [h1]; exact le_of_not_lt h
      · rcases hd with h1 | ⟨h1, h2, h3, h4⟩
        · exact Or.inl h1
        · exact Or.inr ⟨h1, by omega, h3, h4⟩

/-- For nonnegative magnitudes and a nonempty scan range, the peak-scan loop
returns the maximum of the band, attained at the recorded bin, and every
bin before the recorded one is strictly below the peak. -/
lemma peakAux_max (mag : ℕ → ℝ) (hnn : ∀ k, 0 ≤ mag k) (lo c : ℕ) (hc : 0 < c) :
    (∀ j, j < c → mag (lo + j) ≤ (peakAux mag lo c).1) ∧
    lo ≤ (peakAux mag lo c).2 ∧ (peakAux mag lo c).2 < lo + c ∧
    mag (peakAux mag lo c).2 = (peakAux mag lo c).1 ∧
    (∀ k, lo ≤ k → k < (peakAux mag lo c).2 → mag k < (peakAux mag lo c).1) := by
  obtain ⟨h0, hb, hd⟩ := peakAux_spec mag lo c
  rcases hd with h1 | ⟨h1, h2, h3, h4⟩
  · have e1 : (peakAux mag lo c).1 = 0 := by rw [h1]
    have e2 : (peakAux mag lo c).2 = lo := by rw [h1]
    have hm : mag lo = 0 := by
      have hb0 := hb 0 hc
      rw [Nat.add_zero, e1] at hb0
      exact le_antisymm hb0 (hnn lo)
    refine ⟨hb, ?_, ?_, ?_, ?_⟩
    · rw [e2]
    · rw [e2]; omega
    · rw [e2, e1, hm]
    · intro k hk1 hk2
      rw [e2] at hk2
      exact absurd hk2 (not_lt.mpr hk1)
  · exact ⟨hb, h1, h2, h3, h4⟩

/-- C7: for any channel magnitude spectrum (with nonnegative magnitudes, as
produced by the magnitude step), the analyzer's `rms` equals
`sqrt((Σ k in 1..i7+2, mag[k]²) / (i7+2))` with the DC bin excluded, and each
band peak equals the maximum magnitude over its bins — `[i3,i5]` for
`peak_3_5`, `[i5,i7]` for `peak_5_7` — attained at the recorded bin, with
ties broken toward the first maximum in ascending bin order (every bin below
the recorded one is strictly smaller than the peak). -/
theorem C7_spectral (mag : ℕ → ℝ) (hnn : ∀ k, 0 ≤ mag k) :
    rms mag = Real.sqrt ((∑ k in Finset.Icc 1 (i7N + 2), mag k ^ 2) / ((i7N : ℝ) + 2)) ∧
    (∀ k ∈ Finset.Icc i3N i5N, mag k ≤ (peak35 mag).1) ∧
    ((peak35 mag).2 ∈ Finset.Icc i3N i5N ∧ mag (peak35 mag).2 = (peak35 mag).1) ∧
    (∀ k ∈ Finset.Icc i3N i5N, k < (peak35 mag).2 → mag k < (peak35 mag).1) ∧
    (∀ k ∈ Finset.Icc i5N i7N, mag k ≤ (peak57 mag).1) ∧
    ((peak57 mag).2 ∈ Finset.Icc i5N i7N ∧ mag (peak57 mag).2 = (peak57 mag).1) ∧
    (∀ k ∈ Finset.Icc i5N i7N, k < (peak57 mag).2 → mag k < (peak57 mag).1) := by
  have e3 : i3N = 7 := i3N_eq
  have e5 : i5N = 12 := i5N_eq
  have e7 : i7N = 17 := i7N_eq
  have h35 := peakAux_max mag hnn i3N (i5N + 1 - i3N) (by omega)
  have h57 := peakAux_max mag hnn i5N (i7N + 1 - i5N) (by omega)
  rw [show peakAux mag i3N (i5N + 1 - i3N) = peak35 mag from rfl] at h35
  rw [show peakAux mag i5N (i7N + 1 - i5N) = peak57 mag from rfl] at h57
  obtain ⟨hb35, hlo35, hhi35, heq35, hfst35⟩ := h35
  obtain ⟨hb57, hlo57, hhi57, heq57, hfst57⟩ := h57
  refine ⟨?_, ?_, ⟨?_, heq35⟩, ?_, ?_, ⟨?_, heq57⟩, ?_⟩
  · simp [rms, rmsSumSq, sumSqAux_eq_sum, pow_two]
  · intro k hk
    rw [Finset.mem_Icc] at hk
    have := hb35 (k - i3N) (by omega)
    rwa [Nat.add_sub_cancel' (by omega)] at this
  · rw [Finset.mem_Icc]
    omega
  · intro k hk hlt
    rw [Finset.mem_Icc] at hk
    exact hfst35 k (by omega) hlt
  · intro k hk
    rw [Finset.mem_Icc] at hk
    have := hb57 (k - i5N) (by omega)
    rwa [Nat.add_sub_cancel' (by omega)] at this
  · rw [Finset.mem_Icc]
    omega
  · intro k hk hlt
    rw [Finset.mem_Icc] at hk
    exact hfst57 k (by omega) hlt

/-- Witness for C7 at the all-zero magnitude spectrum. -/
theorem C7_witness :
    rms (fun _ => (0:ℝ)) =
      Real.sqrt ((∑ k in Finset.Icc 1 (i7N + 2), (0:ℝ) ^ 2) / ((i7N : ℝ) + 2)) :=
  (C7_spectral (fun _ => (0:ℝ)) (fun _ => le_refl 0)).1

/-- The modelled transform maps the all-zero signal to the all-zero
magnitude spectrum. -/
lemma dftMag_zero (k : ℕ) : dftMag (fun _ => 0) k = 0 := by
  simp [dftMag]

/-- The RMS loop over an identically-zero magnitude function is zero. -/
lemma sumSqAux_zero_of (f : ℕ → ℝ) (hf : ∀ k, f k = 0) : ∀ n, sumSqAux f n = 0 := by
  intro n
  induction n with
  | zero => simp [sumSqAux]
  | succ m ih => simp [sumSqAux, ih, hf]

/-- The peak scan over an identically-zero magnitude function stays at its
initial value `(0, lo)`. -/
lemma peakAux_zero_of (f : ℕ → ℝ) (hf : ∀ k, f k = 0) (lo : ℕ) :
    ∀ c, peakAux f lo c = (0, lo) := by
  intro c
  induction c with
  | zero => rfl
  | succ m ih => simp [peakAux, ih, hf]

/-- C8: for the all-zero window (every sample 0, hence the zero-padded
transform input is the zero signal), every channel's spectral result has
`rms = 0` and both band peaks `0`, and neither the tremor test nor the
dyskinesia test passes for any of the configured thresholds: the `rms = 0`
degenerate case cannot pass the tests, because the floor conjunct
`rms > th * 0.5` fails, so no division-by-zero fault propagates. -/
theorem C8_zero_window :
    (∀ k, dftMag (fun _ => (0:ℝ)) k = 0) ∧
    rms (fun k => dftMag (fun _ => (0:ℝ)) k) = 0 ∧
    (peak35 (fun k => dftMag (fun _ => (0:ℝ)) k)).1 = 0 ∧
    (peak57 (fun k => dftMag (fun _ => (0:ℝ)) k)).1 = 0 ∧
    tremorTest 0 0 ACC_T_TH = false ∧ dyskinesiaTest 0 0 ACC_D_TH = false ∧
    tremorTest 0 0 GYR_T_TH = false ∧ dyskinesiaTest 0 0 GYR_D_TH = false := by
  have hz : ∀ k, dftMag (fun _ => (0:ℝ)) k = 0 := dftMag_zero
  refine ⟨hz, ?_, ?_, ?_, ?_, ?_, ?_, ?_⟩
  · rw [rms, rmsSumSq, sumSqAux_zero_of _ hz]
    simp
  · rw [peak35, peakAux_zero_of _ hz]
  · rw [peak57, peakAux_zero_of _ hz]
  · norm_num [tremorTest, ACC_T_TH, PEAK_TO_RMS]
  · norm_num [dyskinesiaTest, ACC_D_TH, PEAK_TO_RMS]
  · norm_num [tremorTest, GYR_T_TH, PEAK_TO_RMS]
  · norm_num [dyskinesiaTest, GYR_D_TH, PEAK_TO_RMS]

end TremorDetector
